import Mathlib

/-!
Shallow embedding of the hook executor (`HookExecutor` in the hooks module)
and of the LiteLLM / custom-endpoint content generators
(`litellmGeminiContentGenerator.ts`, `contentGenerator.ts`) of the
Tomatio13/gemini-cli repository, together with theorems settling the
frozen claims about them.

Modelling conventions:
* JavaScript optional values are `Option _`; JS truthiness of strings
  (`""` is falsy) and of numbers (`0` is falsy) is made explicit through
  the `jsOr*` helpers, mirroring the `a || b` idiom of the source.
* `JSON.parse` is a platform builtin, not repository code; it is passed
  to each definition as an explicit oracle parameter
  (`String → Option JValue`, `none` = the parse threw).  Concrete
  counterexamples instantiate the oracle only at strings whose real
  `JSON.parse` behaviour is evident.
* `new RegExp(p, 'i')` is likewise passed as an oracle
  (`String → Option (String → Bool)`, `none` = the constructor threw).
* Child processes, promises and streams are replaced by explicit data:
  a hook execution is classified from its observed `ProcOutcome`, and a
  streaming response is a list of complete SSE lines.
-/

/-- JSON values, the image of `JSON.parse`. -/
inductive JValue where
  | jnull : JValue
  | jbool : Bool → JValue
  | jnum : Int → JValue
  | jstr : String → JValue
  | jarr : List JValue → JValue
  | jobj : List (String × JValue) → JValue
deriving Repr

/-- JS truthiness of a JSON value (objects and arrays are always truthy). -/
def JValue.truthy : JValue → Bool
  | .jnull => false
  | .jbool b => b
  | .jnum n => n != 0
  | .jstr s => s != ""
  | .jarr _ => true
  | .jobj _ => true

/-- Property access `v.k` on a parsed JSON value: `none` models JS
`undefined` (non-objects and missing keys). -/
def JValue.getField : JValue → String → Option JValue
  | .jobj fields, k => (fields.find? (fun p => p.1 == k)).map (·.2)
  | _, _ => none

/-- Truthiness of a possibly-undefined JS value. -/
def jsTruthy : Option JValue → Bool
  | none => false
  | some v => v.truthy

/-- The JS idiom `s || d` for an optional string field (`undefined` and
`""` are falsy). -/
def jsOrS : Option String → String → String
  | none, d => d
  | some s, d => if s = "" then d else s

/-- The JS idiom `s || d` for two plain strings. -/
def jsOrS2 (s d : String) : String :=
  if s = "" then d else s

/-- The JS idiom `n || d` for an optional number field (`undefined` and
`0` are falsy). -/
def jsOrN : Option Nat → Nat → Nat
  | none, d => d
  | some n, d => if n = 0 then d else n

/-- The JS idiom `n || 0` used for token counts (`undefined` becomes `0`;
`0` stays `0`, so this is just `getD 0`). -/
def jsOrZ (o : Option Int) : Int :=
  o.getD 0

/-- Truthiness of an optional string (`undefined` and `""` are falsy). -/
def strTruthy : Option String → Bool
  | none => false
  | some s => s != ""

/-! ## Hook executor (hooks module, `part_000`) -/

/-- `HookCommand`: `{type: 'command', command, timeout?}`. -/
structure HookCommand where
  command : String
  timeout : Option Nat
deriving Repr, DecidableEq

/-- `HookMatcher`: `{matcher?, hooks}`. -/
structure HookMatcher where
  matcher : Option String
  hooks : List HookCommand
deriving Repr, DecidableEq

/-- The five hook event names (keys of `HookSettings`). -/
inductive EventName where
  | preToolUse | postToolUse | notific | stop | subagentStop
deriving Repr, DecidableEq

/-- `HookSettings`: each event key optionally carries a matcher list. -/
structure HookSettings where
  preToolUse : Option (List HookMatcher)
  postToolUse : Option (List HookMatcher)
  notific : Option (List HookMatcher)
  stop : Option (List HookMatcher)
  subagentStop : Option (List HookMatcher)
deriving Repr, DecidableEq

/-- `this.hookSettings[eventName]`. -/
def settingsGet (s : HookSettings) : EventName → Option (List HookMatcher)
  | .preToolUse => s.preToolUse
  | .postToolUse => s.postToolUse
  | .notific => s.notific
  | .stop => s.stop
  | .subagentStop => s.subagentStop

/-- `HookInput` (only the fields the executor reads; the rest of the
payload is serialized to stdin and never inspected). -/
structure HookInput where
  session_id : String
  transcript_path : String
  tool_name : Option String
deriving Repr, DecidableEq

/-- `HookExecutionResult`; `decision` carries the raw parsed JSON value
that the source assigns (`decision = parsed`), or the object literal
built in the exit-code-2 branch. -/
structure HookExecutionResult where
  success : Bool
  output : Option String
  error : Option String
  decision : Option JValue
deriving Repr

/-- `HookExecutionOptions` (fields `cwd`/`env` do not influence the
result classification and are omitted). -/
structure HookExecutionOptions where
  timeout : Option Nat
deriving Repr, DecidableEq

/-- Observation of a spawned hook process: either the `error` event fired
(spawn failure), or the `close` event fired with the `timedOut` flag,
the exit code (`none` = `null`, killed by a signal) and the collected
stdout/stderr. -/
structure ProcClose where
  timedOut : Bool
  code : Option Int
  stdout : String
  stderr : String
deriving Repr, DecidableEq

inductive ProcOutcome where
  | errored : String → ProcOutcome
  | closed : ProcClose → ProcOutcome
deriving Repr, DecidableEq

/-- `hook.timeout || options.timeout || this.DEFAULT_TIMEOUT` (60000),
with JS truthiness: a present-but-`0` timeout falls through. -/
def effTimeout (hookT optT : Option Nat) : Nat :=
  jsOrN hookT (jsOrN optT 60000)

/-- `${code}` in a template literal: `null` prints as `"null"`. -/
def jsCodeStr : Option Int → String
  | none => "null"
  | some n => toString n

/-- `stdout.trim()`: strip leading and trailing whitespace (structural
implementation over the character list). -/
def jsTrim (s : String) : String :=
  ⟨((s.data.dropWhile Char.isWhitespace).reverse.dropWhile Char.isWhitespace).reverse⟩

/-- `line.startsWith(pre)` (structural, over the character list). -/
def jsStartsWith (s pre : String) : Bool :=
  List.isPrefixOf pre.data s.data

/-- `line.slice(n)` (structural; the SSE lines are ASCII, where JS
code-unit indexing coincides with character indexing). -/
def jsDrop (s : String) (n : Nat) : String :=
  ⟨s.data.drop n⟩

/-- `executeHook`'s result classification (source lines 220–283): the
promise is resolved from the `close`/`error` events of the spawned
process.  `pj` is the `JSON.parse` oracle used on stdout. -/
def executeHook (pj : String → Option JValue) (hook : HookCommand)
    (opts : HookExecutionOptions) (out : ProcOutcome) : HookExecutionResult :=
  let timeout := effTimeout hook.timeout opts.timeout
  match out with
  | .errored msg => { success := false, output := none, error := some msg, decision := none }
  | .closed c =>
    if c.timedOut then
      { success := false, output := none
        error := some ("Hook command timed out after " ++ toString timeout ++ "ms")
        decision := none }
    else if c.code = some 0 then
      let t := jsTrim c.stdout
      let dec : Option JValue :=
        if t = "" then none
        else match pj t with
          | none => none
          | some parsed =>
            if jsTruthy (parsed.getField "decision") || jsTruthy (parsed.getField "reason") then
              some parsed
            else none
      { success := true, output := some c.stdout, error := none, decision := dec }
    else if c.code = some 2 then
      { success := false, output := none
        error := some (jsOrS2 c.stderr "Hook blocked execution")
        decision := some (.jobj [("decision", .jstr "block"), ("reason", .jstr c.stderr)]) }
    else
      { success := false, output := none
        error := some (jsOrS2 c.stderr ("Hook failed with exit code " ++ jsCodeStr c.code))
        decision := none }

/-- `matchesPattern` (source lines 129–147).  `rc` is the
`new RegExp(pattern, 'i')` oracle: `none` means the constructor threw,
`some test` is the compiled case-insensitive test. -/
def matchesPattern (rc : String → Option (String → Bool))
    (pattern : Option String) (input : HookInput) : Bool :=
  match pattern with
  | none => true
  | some p =>
    if p = "" then true
    else
      match input.tool_name with
      | none => true
      | some tn =>
        if tn = "" then true
        else
          match rc p with
          | some test => test tn
          | none => tn == p

/-- `getMatchingHooks` (source lines 111–124). -/
def getMatchingHooks (rc : String → Option (String → Bool))
    (matchers : List HookMatcher) (input : HookInput) : List HookCommand :=
  matchers.foldl (fun acc m =>
    if matchesPattern rc m.matcher input then acc ++ m.hooks else acc) []

/-- One entry of the `Promise.allSettled` result: the hook promise either
fulfilled with a process outcome (classified by `executeHook`) or was
rejected with an optional `reason.message`. -/
inductive HookRun where
  | ran : ProcOutcome → HookRun
  | crashed : Option String → HookRun
deriving Repr, DecidableEq

/-- `result.reason?.message || 'Hook execution failed'`. -/
def crashMessage (m : Option String) : String :=
  jsOrS m "Hook execution failed"

/-- The hooks actually spawned by `executeHooks`: one process per
matching hook, none when no matchers are registered for the event. -/
def spawnedHooks (rc : String → Option (String → Bool))
    (settings : HookSettings) (ev : EventName) (input : HookInput) : List HookCommand :=
  match settingsGet settings ev with
  | none => []
  | some matchers =>
    if matchers.isEmpty then []
    else getMatchingHooks rc matchers input

/-- `executeHooks` (source lines 64–106): runs all matching hooks and
collects one `HookExecutionResult` per hook; `runs i` is the settled
outcome of the i-th matching hook's promise. -/
def executeHooks (rc : String → Option (String → Bool))
    (pj : String → Option JValue) (settings : HookSettings) (ev : EventName)
    (input : HookInput) (opts : HookExecutionOptions)
    (runs : Nat → HookRun) : List HookExecutionResult :=
  match settingsGet settings ev with
  | none => []
  | some matchers =>
    if matchers.isEmpty then []
    else
      let matching := getMatchingHooks rc matchers input
      if matching.isEmpty then []
      else
        (List.range matching.length).map (fun i =>
          match runs i with
          | .ran out => executeHook pj (matching.getD i ⟨"", none⟩) opts out
          | .crashed m =>
            { success := false, output := none
              error := some (crashMessage m), decision := none })

/-! ## LiteLLM Gemini content generator (`litellmGeminiContentGenerator.ts`) -/

/-- `toolCall.function` as it appears in a (streaming or non-streaming)
`tool_calls` entry; on the OpenAI wire format `arguments` is a JSON
string fragment. -/
structure FnFragment where
  name : Option String
  args : Option String
deriving Repr, DecidableEq

/-- One `tool_calls` entry. -/
structure ToolCallFragment where
  index : Option Nat
  id : Option String
  tcType : Option String
  fn : Option FnFragment
deriving Repr, DecidableEq

/-- `message.function_call` (Gemini-style). -/
structure FnCallGem where
  name : Option String
  args : Option String
deriving Repr, DecidableEq

/-- `choice.delta` / `choice.message`. -/
structure LLMessage where
  content : Option String
  tool_calls : Option (List ToolCallFragment)
  function_call : Option FnCallGem
deriving Repr, DecidableEq

structure LLChoice where
  delta : Option LLMessage
  message : Option LLMessage
  finish_reason : Option String
deriving Repr, DecidableEq

structure LLUsage where
  prompt_tokens : Option Int
  completion_tokens : Option Int
  total_tokens : Option Int
deriving Repr, DecidableEq

/-- A parsed LiteLLM chat-completions payload (the fields the converter
reads). -/
structure LLData where
  choices : List LLChoice
  usage : Option LLUsage
deriving Repr, DecidableEq

/-- One value of the `toolCallAccumulator` map. -/
structure AccEntry where
  id : String
  name : String
  args : String
deriving Repr, DecidableEq

/-- The streaming state: `toolCallAccumulator` and `indexToIdMap`,
modelled as insertion-ordered association lists (JS `Map` iterates in
insertion order; `set` on an existing key updates in place). -/
structure StreamSt where
  acc : List (String × AccEntry)
  idMap : List (Nat × String)
deriving Repr, DecidableEq

/-- `Map.get`. -/
def assocGet {α β : Type} [BEq α] (m : List (α × β)) (k : α) : Option β :=
  (m.find? (fun p => p.1 == k)).map (·.2)

/-- `Map.set`: update the first entry with this key in place (map keys
are unique), else append in insertion order. -/
def assocSet {α β : Type} [BEq α] : List (α × β) → α → β → List (α × β)
  | [], k, v => [(k, v)]
  | p :: m, k, v => if p.1 == k then (k, v) :: m else p :: assocSet m k v

/-- The synthetic id `` `call_${index}` `` (template-literal
stringification of a number is its decimal representation). -/
def syntheticId (index : Nat) : String :=
  "call_" ++ Nat.repr index

/-- `toolCall.index || 0`. -/
def fragIndex (tc : ToolCallFragment) : Nat :=
  jsOrN tc.index 0

/-- The `indexToIdMap` after the `if (toolCall.id && indexToIdMap)`
update (source lines 352–354). -/
def stepIdMap (st : StreamSt) (tc : ToolCallFragment) : List (Nat × String) :=
  match tc.id with
  | some i => if i = "" then st.idMap else assocSet st.idMap (fragIndex tc) i
  | none => st.idMap

/-- `const callId = (indexToIdMap && indexToIdMap.get(index)) ||
toolCall.id || ` `` `call_${index}` `` (source line 357; the map was
already updated). -/
def streamCallId (st : StreamSt) (tc : ToolCallFragment) : String :=
  jsOrS (assocGet (stepIdMap st tc) (fragIndex tc))
    (jsOrS tc.id (syntheticId (fragIndex tc)))

/-- The accumulator update for one streaming `tool_calls` entry
(source lines 346–376): create the entry if absent, then overwrite the
name and append the argument fragment when truthy. -/
def streamAccStep (st : StreamSt) (tc : ToolCallFragment) : StreamSt :=
  match tc.fn with
  | none => st
  | some fn =>
    let idMap := stepIdMap st tc
    let callId := streamCallId st tc
    let acc0 :=
      if (assocGet st.acc callId).isSome then st.acc
      else st.acc ++ [(callId, { id := callId, name := fn.name.getD "", args := "" })]
    let acc :=
      acc0.map (fun p =>
        if p.1 == callId then
          (p.1,
            { id := p.2.id
              name := if strTruthy fn.name then fn.name.getD "" else p.2.name
              args := if strTruthy fn.args then p.2.args ++ fn.args.getD "" else p.2.args })
        else p)
    { acc := acc, idMap := idMap }

/-- A canonical converted function call (`{id, name, args}`). -/
structure LGFunctionCall where
  id : Option String
  name : Option String
  args : JValue
deriving Repr

structure LGUsage where
  promptTokenCount : Int
  candidatesTokenCount : Int
  totalTokenCount : Int
deriving Repr, DecidableEq

/-- A converted `GenerateContentResponse` (the fields the converter
populates: one candidate whose single part is `{text}`). -/
structure LGResponse where
  text : String
  finishReason : String
  usageMetadata : LGUsage
  functionCalls : List LGFunctionCall
deriving Repr

/-- `typeof args === 'string' ? JSON.parse(args) : (args || {})`, with
the surrounding try/catch substituting empty args: best-effort parse of
an arguments string. -/
def parseArgsJS (pj : String → Option JValue) (o : Option String) : JValue :=
  match o with
  | none => .jobj []
  | some s => (pj s).getD (.jobj [])

/-- The `tool_calls` loop of `convertFromLiteLLMFormat` (source lines
343–403): in streaming mode entries are only accumulated (`continue`),
in non-streaming mode each `type === 'function'` entry is converted with
best-effort argument parsing. -/
def processToolCalls (pj : String → Option JValue) (isStream : Bool)
    (tcs : List ToolCallFragment) (st : StreamSt) :
    List LGFunctionCall × StreamSt :=
  tcs.foldl (fun (r : List LGFunctionCall × StreamSt) tc =>
    if (tc.tcType = some "function" || isStream) && tc.fn.isSome then
      if isStream then (r.1, streamAccStep r.2 tc)
      else
        match tc.fn with
        | none => r
        | some fn =>
          (r.1 ++ [{ id := tc.id, name := fn.name, args := parseArgsJS pj fn.args }], r.2)
    else r) ([], st)

/-- `data.usage` → `usageMetadata` with `|| 0` fallbacks (source lines
443–447). -/
def mkLLUsage (u : Option LLUsage) : LGUsage :=
  { promptTokenCount := jsOrZ (u.bind (·.prompt_tokens))
    candidatesTokenCount := jsOrZ (u.bind (·.completion_tokens))
    totalTokenCount := jsOrZ (u.bind (·.total_tokens)) }

/-- The `tool_calls` loop applied to an optional `message.tool_calls`
array (`if (message?.tool_calls && Array.isArray(...))`). -/
def processMessageToolCalls (pj : String → Option JValue) (isStream : Bool)
    (otcs : Option (List ToolCallFragment)) (st : StreamSt) :
    List LGFunctionCall × StreamSt :=
  match otcs with
  | some tcs => processToolCalls pj isStream tcs st
  | none => ([], st)

/-- The Gemini-style `message.function_call` branch (source lines
406–427): one canonical call with a `gemini_<Date.now()>` id and
best-effort argument parsing. -/
def geminiCallOf (pj : String → Option JValue) (nowId : String)
    (ofc : Option FnCallGem) : List LGFunctionCall :=
  match ofc with
  | some fc =>
    [{ id := some ("gemini_" ++ nowId), name := fc.name, args := parseArgsJS pj fc.args }]
  | none => []

/-- `convertFromLiteLLMFormat` (source lines 323–458).  `nowId` stands
for `Date.now()` in the Gemini-style call id.  Returns the optional
response (`none` = the source returned `null`) and the updated streaming
state; `.error` models the `throw` on an empty `choices` array. -/
def convertFromLiteLLMFormat (pj : String → Option JValue) (nowId : String)
    (data : LLData) (isStream : Bool) (st : StreamSt) :
    Except String (Option LGResponse × StreamSt) :=
  match data.choices.head? with
  | none => .error "No choices in LiteLLM response"
  | some choice =>
    let message := if isStream then choice.delta else choice.message
    let text := jsOrS (message.bind (·.content)) ""
    let pr := processMessageToolCalls pj isStream (message.bind (·.tool_calls)) st
    let functionCalls := pr.1 ++ geminiCallOf pj nowId (message.bind (·.function_call))
    if isStream && text = "" && functionCalls.isEmpty then
      .ok (none, pr.2)
    else
      .ok (some
        { text := text
          finishReason := jsOrS choice.finish_reason "STOP"
          usageMetadata := mkLLUsage data.usage
          functionCalls := functionCalls }, pr.2)

/-- `convertAccumulatedToolCallsToGemini` (source lines 460–511). -/
def convertAccumulatedToolCallsToGemini (pj : String → Option JValue)
    (toolCalls : List AccEntry) : Option LGResponse :=
  let functionCalls := toolCalls.map (fun tc =>
    { id := some tc.id
      name := some tc.name
      args := if tc.args = "" then JValue.jobj [] else (pj tc.args).getD (.jobj [])
      : LGFunctionCall })
  if functionCalls.isEmpty then none
  else some
    { text := ""
      finishReason := "tool_calls"
      usageMetadata := { promptTokenCount := 0, candidatesTokenCount := 0, totalTokenCount := 0 }
      functionCalls := functionCalls }

/-- The `[DONE]` handler (source lines 144–154): flush the accumulator
as one synthetic response if it is non-empty. -/
def flushAccumulated (pj : String → Option JValue) (st : StreamSt) : List LGResponse :=
  if st.acc.isEmpty then []
  else (convertAccumulatedToolCallsToGemini pj (st.acc.map (·.2))).toList

/-- The SSE read loop of `generateContentStreamInternal` (source lines
132–171) over the list of complete `data:`-prefixed lines of the body.
`pc` is the `JSON.parse` oracle for chunk payloads (`none` = invalid
JSON, skipped).  Returns the yielded responses, the final streaming
state, and whether the `[DONE]` terminator was seen. -/
def runStreamCore (pc : String → Option LLData) (pj : String → Option JValue)
    (nowId : String) (st : StreamSt) :
    List String → List LGResponse × StreamSt × Bool
  | [] => ([], st, false)
  | line :: rest =>
    if jsStartsWith line "data: " then
      let payload := jsDrop line 6
      if payload = "[DONE]" then
        (flushAccumulated pj st, st, true)
      else
        match pc payload with
        | none => runStreamCore pc pj nowId st rest
        | some chunk =>
          match convertFromLiteLLMFormat pj nowId chunk true st with
          | .error _ => runStreamCore pc pj nowId st rest
          | .ok (yOpt, st') =>
            let r := runStreamCore pc pj nowId st' rest
            (yOpt.toList ++ r.1, r.2.1, r.2.2)
    else runStreamCore pc pj nowId st rest

/-! ## Custom endpoint content generator (`contentGenerator.ts`) -/

/-- `toolCall.function` in an OpenAI-format response. -/
structure OAFunction where
  name : Option String
  args : Option String
deriving Repr, DecidableEq

/-- One `message.tool_calls` entry. -/
structure OAToolCall where
  tcType : Option String
  fn : OAFunction
deriving Repr, DecidableEq

/-- `choice.message` (the converter reads `.content` and `.tool_calls`
unconditionally, so the message object itself is assumed present). -/
structure OAMessage where
  content : Option String
  tool_calls : Option (List OAToolCall)
deriving Repr, DecidableEq

structure OAChoice where
  message : OAMessage
  finish_reason : Option String
deriving Repr, DecidableEq

structure OAResponse where
  choices : List OAChoice
  usage : Option LLUsage
deriving Repr, DecidableEq

/-- A part of the converted candidate: `{text}` or `{functionCall}`. -/
inductive CEPart where
  | text : String → CEPart
  | functionCall : Option String → JValue → CEPart
deriving Repr

/-- `usageMetadata` as built by `convertOpenAIToGemini`: the provider
counts are copied verbatim (no fallback), so each may be undefined. -/
structure CEUsage where
  promptTokenCount : Option Int
  candidatesTokenCount : Option Int
  totalTokenCount : Option Int
deriving Repr, DecidableEq

/-- The converted response of `convertOpenAIToGemini`: `usageMetadata`
is attached only when the provider reported usage. -/
structure CEResponse where
  parts : List CEPart
  finishReason : String
  usageMetadata : Option CEUsage
  text : String
deriving Repr

/-- The `tool_calls.forEach` loop of `convertOpenAIToGemini` (source
lines 116–127): `JSON.parse(toolCall.function.arguments || '{}')` is
*not* wrapped in a try/catch, so a failing parse aborts the whole
conversion (modelled as `.error`). -/
def ceToolCallParts (pj : String → Option JValue) :
    List OAToolCall → Except String (List CEPart)
  | [] => .ok []
  | tc :: rest =>
    if tc.tcType = some "function" then
      match pj (jsOrS tc.fn.args "\x7b\x7d") with
      | none => .error "SyntaxError: JSON.parse"
      | some v => do
        let tail ← ceToolCallParts pj rest
        return CEPart.functionCall tc.fn.name v :: tail
    else ceToolCallParts pj rest

/-- `convertOpenAIToGemini` (source lines 86–147). -/
def convertOpenAIToGemini (pj : String → Option JValue) (resp : OAResponse) :
    Except String CEResponse :=
  match resp.choices.head? with
  | none => .error "No choices in OpenAI response"
  | some choice =>
    let textParts : List CEPart :=
      (match choice.message.content with
      | some s => if s = "" then [] else [.text s]
      | none => [])
    match ceToolCallParts pj (choice.message.tool_calls.getD []) with
    | .error e => .error e
    | .ok callParts => .ok
      { parts := textParts ++ callParts
        finishReason := if choice.finish_reason = some "stop" then "STOP" else "OTHER"
        usageMetadata :=
          match resp.usage with
          | none => none
          | some u => some
            { promptTokenCount := u.prompt_tokens
              candidatesTokenCount := u.completion_tokens
              totalTokenCount := u.total_tokens }
        text := jsOrS choice.message.content "" }

/-! ## Claim-specific auxiliary definitions -/

/-- A settled hook promise that the claims classify as a failure:
rejected, spawn error, timeout, or non-zero (or null) exit code. -/
def runFailed : HookRun → Bool
  | .crashed _ => true
  | .ran (.errored _) => true
  | .ran (.closed c) => c.timedOut || !(c.code == some 0)

/-- Default element used with `List.getD` on result lists (a successful
empty result, so no failure statement can hold of it by accident). -/
def defaultResult : HookExecutionResult :=
  { success := true, output := none, error := none, decision := none }

/-- Modelled from the spec: "effective timeout = hook-specific timeout,
else the call's `options.timeout`, else a 60-second default", reading
"if present" as plain presence.  Used only to compare the claim's words
with the source's `||` chain (`effTimeout`). -/
def effTimeoutSpec (hookT optT : Option Nat) : Nat :=
  hookT.getD (optT.getD 60000)

/-- Modelled from the spec: "a matcher with a pattern is evaluated only
when the input *carries* a tool-name field", reading "carries" as field
presence.  Used only to compare the claim's words with the source's
truthiness test (`matchesPattern`). -/
def matchesPatternSpec (rc : String → Option (String → Bool))
    (pattern : Option String) (input : HookInput) : Bool :=
  match pattern with
  | none => true
  | some p =>
    if p = "" then true
    else
      match input.tool_name with
      | none => true
      | some tn =>
        match rc p with
        | some test => test tn
        | none => tn == p

/-- Concrete `JSON.parse` oracle, faithful on the one string it is used
at: `JSON.parse` of `{"decision":""}` yields the object with an empty
`decision` field. -/
def pjDecisionEmpty : String → Option JValue := fun s =>
  if s = "\x7b\"decision\":\"\"\x7d" then some (.jobj [("decision", .jstr "")]) else none

/-- Characters of a string lowered (ASCII case folding). -/
def lowerData (s : String) : List Char := s.data.map Char.toLower

/-- Structural substring test on character lists. -/
def hasSub (pat : List Char) : List Char → Bool
  | [] => List.isPrefixOf pat []
  | c :: rest => List.isPrefixOf pat (c :: rest) || hasSub pat rest

/-- Concrete `new RegExp(p, 'i')` oracle, faithful at `p = "Write"`:
`/Write/i.test(s)` is an ASCII case-insensitive substring test. -/
def rcWrite : String → Option (String → Bool) := fun p =>
  if p = "Write" then some (fun tn => hasSub ("write".data) (lowerData tn)) else none

/-- Concrete `JSON.parse` oracle, faithful at the strings it is used
at: `JSON.parse("{}")` is the empty object, `JSON.parse("oops")` throws. -/
def pjBraceOnly : String → Option JValue := fun s =>
  if s = "\x7b\x7d" then some (.jobj []) else none

/-- An SSE line that is the `data: [DONE]` terminator. -/
def isDoneLine (l : String) : Bool :=
  jsStartsWith l "data: " && (jsDrop l 6 == "[DONE]")

/-- A parsed chunk whose first choice's delta carries no Gemini-style
`function_call` (the claim concerns OpenAI-style `tool_calls`
fragments). -/
def chunkNoGeminiCall (d : LLData) : Bool :=
  ((d.choices.head?.bind (fun c => c.delta)).bind (fun m => m.function_call)).isNone

/-- The SSE payload of one streaming chunk carrying a single tool-call
fragment at index 0 (`{"choices":[{"delta":{"tool_calls":[{"index":0,
"function":{"name":"f","arguments":"{}"}}]}}]}`). -/
def fragPayload : String :=
  "\x7b\"choices\":[\x7b\"delta\":\x7b\"tool_calls\":[\x7b\"index\":0,\"function\":\x7b\"name\":\"f\",\"arguments\":\"\x7b\x7d\"\x7d\x7d]\x7d\x7d]\x7d"

/-- Concrete chunk-`JSON.parse` oracle, faithful at `fragPayload`. -/
def pcFrag : String → Option LLData := fun s =>
  if s = fragPayload then
    some ⟨[⟨some ⟨none, some [⟨some 0, none, none, some ⟨some "f", some "\x7b\x7d"⟩⟩], none⟩,
           none, none⟩], none⟩
  else none

/-! ## Decimal representation round-trip (for distinctness of the
synthetic call ids) -/

/-- Value of a decimal digit character. -/
def digitVal (c : Char) : Nat := c.toNat - 48

/-- Left fold evaluating a decimal digit list with accumulator `a`. -/
def evalDigits : Nat → List Char → Nat
  | a, [] => a
  | a, c :: l => evalDigits (10 * a + digitVal c) l

theorem digitVal_digitChar : ∀ m, m < 10 → digitVal (Nat.digitChar m) = m := by decide

theorem evalDigits_toDigitsCore :
    ∀ (f n : Nat) (ds : List Char), n < 10 ^ (f + 1) →
      evalDigits 0 (Nat.toDigitsCore 10 (f + 1) n ds) = evalDigits n ds := by
  intro f
  induction f with
  | zero =>
    intro n ds h
    have h10 : n < 10 := by simpa using h
    have hd : n / 10 = 0 := Nat.div_eq_of_lt h10
    have hm : n % 10 = n := Nat.mod_eq_of_lt h10
    have hstep : Nat.toDigitsCore 10 (0 + 1) n ds = Nat.digitChar (n % 10) :: ds := by
      simp [Nat.toDigitsCore, hd]
    have h1 : 10 * 0 + digitVal (Nat.digitChar (n % 10)) = n := by
      rw [digitVal_digitChar (n % 10) (@Nat.mod_lt n 10 (by norm_num)), hm]; omega
    rw [hstep, show evalDigits 0 (Nat.digitChar (n % 10) :: ds)
        = evalDigits (10 * 0 + digitVal (Nat.digitChar (n % 10))) ds from rfl, h1]
  | succ f ih =>
    intro n ds h
    by_cases hd : n / 10 = 0
    · have hn : n < 10 := by
        by_contra hge
        have h2 : 10 / 10 ≤ n / 10 := Nat.div_le_div_right (Nat.le_of_not_lt hge)
        simp [hd] at h2
      have hm : n % 10 = n := Nat.mod_eq_of_lt hn
      have hstep : Nat.toDigitsCore 10 (f + 1 + 1) n ds = Nat.digitChar (n % 10) :: ds := by
        simp [Nat.toDigitsCore, hd]
      have h1 : 10 * 0 + digitVal (Nat.digitChar (n % 10)) = n := by
        rw [digitVal_digitChar (n % 10) (@Nat.mod_lt n 10 (by norm_num)), hm]; omega
      rw [hstep, show evalDigits 0 (Nat.digitChar (n % 10) :: ds)
          = evalDigits (10 * 0 + digitVal (Nat.digitChar (n % 10))) ds from rfl, h1]
    · have hlt : n / 10 < 10 ^ (f + 1) := by
        apply (Nat.div_lt_iff_lt_mul (by norm_num : 0 < 10)).mpr
        calc n < 10 ^ (f + 1 + 1) := h
        _ = 10 ^ (f + 1) * 10 := by ring
      have hstep : Nat.toDigitsCore 10 (f + 1 + 1) n ds
          = Nat.toDigitsCore 10 (f + 1) (n / 10) (Nat.digitChar (n % 10) :: ds) := by
        simp [Nat.toDigitsCore, hd]
      have hih := ih (n / 10) (Nat.digitChar (n % 10) :: ds) hlt
      have h1 : 10 * (n / 10) + digitVal (Nat.digitChar (n % 10)) = n := by
        rw [digitVal_digitChar (n % 10) (@Nat.mod_lt n 10 (by norm_num))]
        exact Nat.div_add_mod n 10
      rw [hstep, hih, show evalDigits (n / 10) (Nat.digitChar (n % 10) :: ds)
          = evalDigits (10 * (n / 10) + digitVal (Nat.digitChar (n % 10))) ds from rfl, h1]

theorem evalDigits_toDigits (n : Nat) : evalDigits 0 (Nat.toDigits 10 n) = n := by
  have h : n < 10 ^ (n + 1) := by
    calc n < 10 ^ n := Nat.lt_pow_self (by norm_num) n
    _ ≤ 10 ^ (n + 1) := Nat.pow_le_pow_right (by norm_num) (Nat.le_succ n)
  simpa [Nat.toDigits] using evalDigits_toDigitsCore n n [] h

theorem natRepr_injective {m n : Nat} (h : Nat.repr m = Nat.repr n) : m = n := by
  have hl : Nat.toDigits 10 m = Nat.toDigits 10 n := by
    have hd := congrArg String.data h
    simpa [Nat.repr, List.asString] using hd
  have h2 := congrArg (evalDigits 0) hl
  rw [evalDigits_toDigits, evalDigits_toDigits] at h2
  exact h2

/-- The synthetic ids `` `call_${index}` `` of distinct indices are
distinct strings. -/
theorem syntheticId_injective {i j : Nat} (h : syntheticId i = syntheticId j) : i = j := by
  apply natRepr_injective
  have hd := congrArg String.data h
  simp only [syntheticId, String.data_append] at hd
  apply String.ext
  exact List.append_cancel_left hd

/-! ## Hook executor: helper lemmas -/

theorem getD_range_map {α : Type} (f : Nat → α) (n i : Nat) (d : α) (h : i < n) :
    ((List.range n).map f).getD i d = f i := by
  rw [List.getD_eq_getElem?_getD, List.getElem?_map, List.getElem?_range h]
  rfl

theorem executeHook_failed_outcome (pj : String → Option JValue) (hook : HookCommand)
    (opts : HookExecutionOptions) (out : ProcOutcome)
    (hf : runFailed (.ran out) = true) :
    (executeHook pj hook opts out).success = false ∧
    (executeHook pj hook opts out).error.isSome = true := by
  cases out with
  | errored msg => exact ⟨rfl, rfl⟩
  | closed c =>
    by_cases ht : c.timedOut
    · simp [executeHook, ht]
    · have hc : ¬ c.code = some 0 := by
        simp [runFailed, ht] at hf
        simpa using hf
      by_cases h2 : c.code = some 2
      · simp [executeHook, ht, hc, h2]
      · simp [executeHook, ht, hc, h2]

/-! ## Claim C1 -/

/-- C1: for every event name, input payload and hook configuration (and
any behaviour of the spawned processes and their promises),
`executeHooks` resolves with one result entry per matching hook, and
every per-hook failure — rejected promise, spawn error, timeout, or
non-zero exit — yields an entry with `success = false` and an `error`
message; no failure escapes as an exception (the embedding is a total
function into result lists). -/
theorem executeHooks_absorbs_all_failures
    (rc : String → Option (String → Bool)) (pj : String → Option JValue)
    (settings : HookSettings) (ev : EventName) (input : HookInput)
    (opts : HookExecutionOptions) (runs : Nat → HookRun) :
    (executeHooks rc pj settings ev input opts runs).length =
      (spawnedHooks rc settings ev input).length ∧
    ∀ i, i < (executeHooks rc pj settings ev input opts runs).length →
      runFailed (runs i) = true →
        ((executeHooks rc pj settings ev input opts runs).getD i defaultResult).success = false ∧
        ((executeHooks rc pj settings ev input opts runs).getD i defaultResult).error.isSome = true := by
  cases hs : settingsGet settings ev with
  | none => simp [executeHooks, spawnedHooks, hs]
  | some matchers =>
    by_cases he : matchers.isEmpty
    · simp [executeHooks, spawnedHooks, hs, he]
    · by_cases hm : (getMatchingHooks rc matchers input).isEmpty
      · constructor
        · simp [executeHooks, spawnedHooks, hs, he, hm, List.isEmpty_iff.mp hm]
        · intro i hi
          simp [executeHooks, hs, he, hm] at hi
      · constructor
        · simp [executeHooks, spawnedHooks, hs, he, hm]
        · intro i hi hf
          have hlen : (executeHooks rc pj settings ev input opts runs).length =
              (getMatchingHooks rc matchers input).length := by
            simp [executeHooks, hs, he, hm]
          have hi' : i < (getMatchingHooks rc matchers input).length := hlen ▸ hi
          have hev : executeHooks rc pj settings ev input opts runs =
              (List.range (getMatchingHooks rc matchers input).length).map (fun i =>
                match runs i with
                | .ran out =>
                  executeHook pj ((getMatchingHooks rc matchers input).getD i ⟨"", none⟩) opts out
                | .crashed m =>
                  { success := false, output := none
                    error := some (crashMessage m), decision := none }) := by
            simp [executeHooks, hs, he, hm]
          rw [hev, getD_range_map _ _ _ _ hi']
          cases hr : runs i with
          | crashed m => exact ⟨rfl, rfl⟩
          | ran out =>
            exact executeHook_failed_outcome pj _ opts out (by rw [← hr]; exact hf)

/-- Witness for C1 at a concrete configuration: one registered matcher
whose hook promise was rejected. -/
theorem executeHooks_absorbs_all_failures_witness :
    0 < (executeHooks (fun _ => none) (fun _ => none)
        ⟨some [⟨none, [⟨"cmd", none⟩]⟩], none, none, none, none⟩ .preToolUse
        ⟨"s", "t", none⟩ ⟨none⟩ (fun _ => .crashed none)).length ∧
    runFailed ((fun _ => HookRun.crashed none) 0) = true ∧
    ((executeHooks (fun _ => none) (fun _ => none)
        ⟨some [⟨none, [⟨"cmd", none⟩]⟩], none, none, none, none⟩ .preToolUse
        ⟨"s", "t", none⟩ ⟨none⟩ (fun _ => .crashed none)).getD 0 defaultResult).success = false ∧
    ((executeHooks (fun _ => none) (fun _ => none)
        ⟨some [⟨none, [⟨"cmd", none⟩]⟩], none, none, none, none⟩ .preToolUse
        ⟨"s", "t", none⟩ ⟨none⟩ (fun _ => .crashed none)).getD 0 defaultResult).error.isSome = true := by
  refine ⟨by decide, by decide, ?_, ?_⟩
  · exact ((executeHooks_absorbs_all_failures (fun _ => none) (fun _ => none)
      ⟨some [⟨none, [⟨"cmd", none⟩]⟩], none, none, none, none⟩ .preToolUse
      ⟨"s", "t", none⟩ ⟨none⟩ (fun _ => .crashed none)).2 0 (by decide) (by decide)).1
  · exact ((executeHooks_absorbs_all_failures (fun _ => none) (fun _ => none)
      ⟨some [⟨none, [⟨"cmd", none⟩]⟩], none, none, none, none⟩ .preToolUse
      ⟨"s", "t", none⟩ ⟨none⟩ (fun _ => .crashed none)).2 0 (by decide) (by decide)).2

/-! ## Claim C7 -/

/-- C7: when no matchers are registered for the event (the settings key
is absent or holds an empty list), `executeHooks` returns the empty
result list and spawns no process, for every input. -/
theorem executeHooks_no_matchers_empty
    (rc : String → Option (String → Bool)) (pj : String → Option JValue)
    (settings : HookSettings) (ev : EventName) (input : HookInput)
    (opts : HookExecutionOptions) (runs : Nat → HookRun)
    (h : settingsGet settings ev = none ∨ settingsGet settings ev = some []) :
    executeHooks rc pj settings ev input opts runs = [] ∧
    spawnedHooks rc settings ev input = [] := by
  rcases h with h | h
  · simp [executeHooks, spawnedHooks, h]
  · simp [executeHooks, spawnedHooks, h]

/-- Witness for C7: an event (`Stop`) with no registered matchers. -/
theorem executeHooks_no_matchers_empty_witness :
    executeHooks (fun _ => none) (fun _ => none)
        ⟨some [⟨none, [⟨"cmd", none⟩]⟩], none, none, none, none⟩ .stop
        ⟨"s", "t", none⟩ ⟨none⟩ (fun _ => .crashed none) = [] ∧
    spawnedHooks (fun _ => none)
        ⟨some [⟨none, [⟨"cmd", none⟩]⟩], none, none, none, none⟩ .stop
        ⟨"s", "t", none⟩ = [] :=
  executeHooks_no_matchers_empty (fun _ => none) (fun _ => none)
    ⟨some [⟨none, [⟨"cmd", none⟩]⟩], none, none, none, none⟩ .stop
    ⟨"s", "t", none⟩ ⟨none⟩ (fun _ => .crashed none) (Or.inl rfl)

/-! ## Claim C2 -/

/-- C2 (amended): a hook that completes (not timed out) with exit code 2
yields `success = false` with `decision = {decision:'block', reason: stderr}`
where `reason` is the *raw* standard-error text (possibly empty — it
does not fall back), while the `error` field is stderr or the generic
`'Hook blocked execution'` message when stderr is empty. -/
theorem executeHook_exit2_block_decision
    (pj : String → Option JValue) (hook : HookCommand) (opts : HookExecutionOptions)
    (stdout stderr : String) :
    executeHook pj hook opts (.closed ⟨false, some 2, stdout, stderr⟩) =
      { success := false, output := none
        error := some (if stderr = "" then "Hook blocked execution" else stderr)
        decision := some (.jobj [("decision", .jstr "block"), ("reason", .jstr stderr)]) } :=
  rfl

/-- Counterexample to C2 as stated: with empty standard error the
attached decision's `reason` is the empty string — it does not fall back
to the generic message (only the `error` field does). -/
theorem executeHook_exit2_reason_no_fallback_cex :
    (executeHook (fun _ => none) ⟨"h", none⟩ ⟨none⟩
        (.closed ⟨false, some 2, "", ""⟩)).decision =
      some (.jobj [("decision", .jstr "block"), ("reason", .jstr "")]) ∧
    (executeHook (fun _ => none) ⟨"h", none⟩ ⟨none⟩
        (.closed ⟨false, some 2, "", ""⟩)).error = some "Hook blocked execution" ∧
    "" ≠ "Hook blocked execution" :=
  ⟨rfl, rfl, by decide⟩

/-! ## Claim C6 -/

/-- C6 (amended): the effective timeout is the hook-specific timeout if
present *and non-zero*, else `options.timeout` if present and non-zero,
else 60000 ms; a hook observed as timed out yields `success = false`,
no decision, and an error message containing `"timed out"` that names
the effective timeout. -/
theorem executeHook_timeout_classification
    (pj : String → Option JValue) (hook : HookCommand) (opts : HookExecutionOptions)
    (c : ProcClose) (h : c.timedOut = true) :
    executeHook pj hook opts (.closed c) =
      { success := false, output := none
        error := some ("Hook command timed out after "
            ++ toString (effTimeout hook.timeout opts.timeout) ++ "ms")
        decision := none } ∧
    (∃ a b, "Hook command timed out after "
        ++ toString (effTimeout hook.timeout opts.timeout) ++ "ms"
        = a ++ "timed out" ++ b) ∧
    effTimeout hook.timeout opts.timeout =
      jsOrN hook.timeout (jsOrN opts.timeout 60000) := by
  refine ⟨by simp [executeHook, h], ?_, rfl⟩
  refine ⟨"Hook command ", " after " ++ toString (effTimeout hook.timeout opts.timeout) ++ "ms", ?_⟩
  apply String.ext
  simp [String.data_append]

/-- Witness for C6 at a concrete timed-out process. -/
theorem executeHook_timeout_classification_witness :
    (ProcClose.mk true none "" "").timedOut = true ∧
    executeHook (fun _ => none) ⟨"c", some 0⟩ ⟨some 5000⟩ (.closed ⟨true, none, "", ""⟩) =
      { success := false, output := none
        error := some ("Hook command timed out after "
            ++ toString (effTimeout (some 0) (some 5000)) ++ "ms")
        decision := none } :=
  ⟨rfl, (executeHook_timeout_classification (fun _ => none) ⟨"c", some 0⟩ ⟨some 5000⟩
    ⟨true, none, "", ""⟩ rfl).1⟩

/-- Counterexample to C6 as stated: a hook-specific timeout that is
*present* but `0` is skipped by the `||` chain — the effective timeout
is `options.timeout` (here 5000 ms), not the present hook value, so the
claim's "hook-specific timeout if present" reading fails; the timed-out
error message names 5000 ms. -/
theorem effTimeout_zero_ignored_cex :
    effTimeout (some 0) (some 5000) = 5000 ∧
    effTimeoutSpec (some 0) (some 5000) = 0 ∧
    (5000 : Nat) ≠ 0 ∧
    (executeHook (fun _ => none) ⟨"c", some 0⟩ ⟨some 5000⟩
        (.closed ⟨true, none, "", ""⟩)).error =
      some "Hook command timed out after 5000ms" :=
  ⟨rfl, rfl, by decide, rfl⟩

/-! ## Claim C4 -/

/-- C4 (amended): a matcher with an absent or empty pattern matches
unconditionally; when the input carries a *non-empty* tool name, a
non-empty pattern is tested with the compiled case-insensitive regular
expression, falling back to exact string equality when compilation
fails; when the tool name is absent — or present but empty, which JS
truthiness treats as absent — any pattern is ignored and the matcher
matches. -/
theorem matchesPattern_clauses (rc : String → Option (String → Bool)) :
    (∀ input, matchesPattern rc none input = true) ∧
    (∀ input, matchesPattern rc (some "") input = true) ∧
    (∀ p s t, matchesPattern rc (some p) ⟨s, t, none⟩ = true) ∧
    (∀ p s t, matchesPattern rc (some p) ⟨s, t, some ""⟩ = true) ∧
    (∀ p s t tn test, p ≠ "" → tn ≠ "" → rc p = some test →
        matchesPattern rc (some p) ⟨s, t, some tn⟩ = test tn) ∧
    (∀ p s t tn, p ≠ "" → tn ≠ "" → rc p = none →
        matchesPattern rc (some p) ⟨s, t, some tn⟩ = (tn == p)) := by
  refine ⟨fun input => rfl, fun input => rfl, ?_, ?_, ?_, ?_⟩
  · intro p s t
    by_cases hp : p = "" <;> simp [matchesPattern, hp]
  · intro p s t
    by_cases hp : p = "" <;> simp [matchesPattern, hp]
  · intro p s t tn test hp htn hrc
    simp [matchesPattern, hp, htn, hrc]
  · intro p s t tn hp htn hrc
    simp [matchesPattern, hp, htn, hrc]

/-- Witness for C4: the pattern `"Write"` compiled against the non-empty
tool name `"myWriteTool"` is decided by the regex test. -/
theorem matchesPattern_clauses_witness :
    ("Write" : String) ≠ "" ∧ ("myWriteTool" : String) ≠ "" ∧
    rcWrite "Write" = some (fun tn => hasSub ("write".data) (lowerData tn)) ∧
    matchesPattern rcWrite (some "Write") ⟨"s", "t", some "myWriteTool"⟩ =
      (fun tn : String => hasSub ("write".data) (lowerData tn)) "myWriteTool" := by
  refine ⟨by decide, by decide, rfl, ?_⟩
  exact (matchesPattern_clauses rcWrite).2.2.2.2.1 "Write" "s" "t" "myWriteTool" _
    (by decide) (by decide) rfl

/-- Counterexample to C4 as stated: an input that *carries* a tool-name
field holding the empty string is not tested against the pattern — the
matcher matches unconditionally — whereas the claim's reading (pattern
tested whenever the input carries a tool name) tests `/Write/i` against
`""` and fails. -/
theorem matchesPattern_empty_toolname_cex :
    matchesPattern rcWrite (some "Write") ⟨"s", "t", some ""⟩ = true ∧
    matchesPatternSpec rcWrite (some "Write") ⟨"s", "t", some ""⟩ = false :=
  ⟨rfl, rfl⟩

/-! ## Claim C5 -/

/-- C5 (amended): a hook completing with exit code 0 is a success (the
stdout is returned, no error); a decision is attached iff the trimmed
stdout is non-empty, parses as JSON, and the parsed value's `decision`
or `reason` field is *truthy* (present with a non-empty/non-zero/
non-false/non-null value); non-JSON stdout, or JSON without a truthy
`decision`/`reason`, yields success with no decision, never an error. -/
theorem executeHook_exit0_success_decision
    (pj : String → Option JValue) (hook : HookCommand) (opts : HookExecutionOptions)
    (stdout stderr : String) :
    (executeHook pj hook opts (.closed ⟨false, some 0, stdout, stderr⟩)).success = true ∧
    (executeHook pj hook opts (.closed ⟨false, some 0, stdout, stderr⟩)).output = some stdout ∧
    (executeHook pj hook opts (.closed ⟨false, some 0, stdout, stderr⟩)).error = none ∧
    ∀ v : JValue,
      ((executeHook pj hook opts (.closed ⟨false, some 0, stdout, stderr⟩)).decision = some v ↔
        (jsTrim stdout ≠ "" ∧ pj (jsTrim stdout) = some v ∧
          (jsTruthy (v.getField "decision") || jsTruthy (v.getField "reason")) = true)) := by
  refine ⟨rfl, rfl, rfl, ?_⟩
  intro v
  have hdec : (executeHook pj hook opts (.closed ⟨false, some 0, stdout, stderr⟩)).decision
      = (if jsTrim stdout = "" then none
         else match pj (jsTrim stdout) with
           | none => none
           | some parsed =>
             if jsTruthy (parsed.getField "decision") || jsTruthy (parsed.getField "reason")
             then some parsed else none) := rfl
  rw [hdec]
  by_cases ht : jsTrim stdout = ""
  · simp [ht]
  · rw [if_neg ht]
    cases hp : pj (jsTrim stdout) with
    | none => simp [ht, hp]
    | some parsed =>
      show (if (jsTruthy (parsed.getField "decision") || jsTruthy (parsed.getField "reason"))
              = true then some parsed else none) = some v ↔
          (jsTrim stdout ≠ "" ∧ some parsed = some v ∧
            (jsTruthy (v.getField "decision") || jsTruthy (v.getField "reason")) = true)
      by_cases htr :
          (jsTruthy (parsed.getField "decision") || jsTruthy (parsed.getField "reason")) = true
      · rw [if_pos htr]
        constructor
        · intro h
          cases h
          exact ⟨ht, rfl, htr⟩
        · rintro ⟨-, hpv, -⟩
          exact hpv
      · rw [if_neg htr]
        constructor
        · intro h
          cases h
        · rintro ⟨-, hpv, hv⟩
          cases hpv
          exact absurd hv htr

/-- Counterexample to C5 as stated: stdout `{"decision":""}` parses and
the parsed object *has* a `decision` field, yet no decision is attached,
because the source tests JS truthiness of the field value (the empty
string is falsy), not field presence. -/
theorem executeHook_exit0_field_presence_cex :
    pjDecisionEmpty (jsTrim "\x7b\"decision\":\"\"\x7d") = some (.jobj [("decision", .jstr "")]) ∧
    (JValue.jobj [("decision", .jstr "")]).getField "decision" = some (.jstr "") ∧
    (executeHook pjDecisionEmpty ⟨"h", none⟩ ⟨none⟩
        (.closed ⟨false, some 0, "\x7b\"decision\":\"\"\x7d", ""⟩)).success = true ∧
    (executeHook pjDecisionEmpty ⟨"h", none⟩ ⟨none⟩
        (.closed ⟨false, some 0, "\x7b\"decision\":\"\"\x7d", ""⟩)).decision = none :=
  ⟨rfl, rfl, rfl, rfl⟩

/-! ## Streaming accumulator: helper lemmas -/

theorem assocGet_set_self {α β : Type} [BEq α] [LawfulBEq α]
    (m : List (α × β)) (k : α) (v : β) :
    assocGet (assocSet m k v) k = some v := by
  induction m with
  | nil => simp [assocSet, assocGet]
  | cons p m ih =>
    by_cases h : p.1 == k
    · simp [assocSet, assocGet, h]
    · simp only [assocSet, h]
      rw [if_neg (by simp_all)]
      simpa [assocGet, List.find?, h] using ih

theorem assocGet_set_ne {α β : Type} [BEq α] [LawfulBEq α]
    (m : List (α × β)) (k k' : α) (v : β) (h : (k == k') = false) :
    assocGet (assocSet m k v) k' = assocGet m k' := by
  induction m with
  | nil => simp [assocSet, assocGet, List.find?, h]
  | cons p m ih =>
    by_cases hp : p.1 == k
    · have hk : p.1 = k := by simpa using hp
      simp [assocSet, assocGet, List.find?, hp, hk, h]
    · simp only [assocSet, hp]
      rw [if_neg (by simp_all)]
      by_cases hp' : p.1 == k'
      · simp [assocGet, List.find?, hp']
      · simp only [assocGet, List.find?, hp']
        simpa [assocGet] using ih

theorem streamAccStep_idMap_preserved (st : StreamSt) (tc : ToolCallFragment) (i : Nat)
    (h : strTruthy tc.id = false ∨ fragIndex tc ≠ i) :
    assocGet (streamAccStep st tc).idMap i = assocGet st.idMap i := by
  cases hfn : tc.fn with
  | none => simp [streamAccStep, hfn]
  | some fn =>
    have hm : (streamAccStep st tc).idMap = stepIdMap st tc := by
      simp [streamAccStep, hfn]
    rw [hm]
    cases hid : tc.id with
    | none => simp [stepIdMap, hid]
    | some idv =>
      by_cases hz : idv = ""
      · simp [stepIdMap, hid, hz]
      · rcases h with h | h
        · rw [hid] at h
          simp [strTruthy, hz] at h
        · simp only [stepIdMap, hid, if_neg hz]
          exact assocGet_set_ne _ _ _ _ (by simpa using h)

/-! ## Claim C8 -/

/-- C8 (amended): a streaming tool-call chunk at an index with no
remembered id and without a truthy explicit id is keyed by the synthetic
id `` `call_${index}` ``; a (non-empty) explicit id seen for an index is
recorded in `indexToIdMap` and reused for every later id-less chunk of
that index (later chunks not bearing an id for that index never disturb
the recorded entry); and the synthetic ids of distinct indices are
distinct strings, so id-less chunks at distinct indices never collide in
the accumulator.  (Collision-freedom holds for the synthetic scheme:
a provider-supplied explicit id may still equal another index's key —
see the counterexample.) -/
theorem streamAcc_stable_id_assignment :
    (∀ (st : StreamSt) (tc : ToolCallFragment),
        assocGet st.idMap (fragIndex tc) = none → strTruthy tc.id = false →
        streamCallId st tc = syntheticId (fragIndex tc)) ∧
    (∀ (st : StreamSt) (tc : ToolCallFragment) (cid : String),
        assocGet st.idMap (fragIndex tc) = some cid → cid ≠ "" → strTruthy tc.id = false →
        streamCallId st tc = cid) ∧
    (∀ (st : StreamSt) (tc : ToolCallFragment) (idv : String),
        tc.id = some idv → idv ≠ "" → tc.fn.isSome = true →
        assocGet (streamAccStep st tc).idMap (fragIndex tc) = some idv ∧
        streamCallId st tc = idv) ∧
    (∀ (frags : List ToolCallFragment) (st : StreamSt) (i : Nat),
        (∀ tc ∈ frags, strTruthy tc.id = false ∨ fragIndex tc ≠ i) →
        assocGet ((frags.foldl streamAccStep st).idMap) i = assocGet st.idMap i) ∧
    (∀ i j : Nat, i ≠ j → syntheticId i ≠ syntheticId j) := by
  refine ⟨?_, ?_, ?_, ?_, ?_⟩
  · intro st tc hmap hid
    cases hid' : tc.id with
    | none => simp [streamCallId, stepIdMap, hid', hmap, jsOrS]
    | some idv =>
      have hz : idv = "" := by
        by_contra hc
        rw [hid'] at hid
        simp [strTruthy, hc] at hid
      simp [streamCallId, stepIdMap, hid', hz, hmap, jsOrS]
  · intro st tc cid hmap hz hid
    cases hid' : tc.id with
    | none => simp [streamCallId, stepIdMap, hid', hmap, jsOrS, hz]
    | some idv =>
      have hz' : idv = "" := by
        by_contra hc
        rw [hid'] at hid
        simp [strTruthy, hc] at hid
      simp [streamCallId, stepIdMap, hid', hz', hmap, jsOrS, hz]
  · intro st tc idv hid hz hfn
    cases hfn' : tc.fn with
    | none => rw [hfn'] at hfn; cases hfn
    | some fn =>
      constructor
      · have hm : (streamAccStep st tc).idMap = stepIdMap st tc := by
          simp [streamAccStep, hfn']
        rw [hm]
        simp only [stepIdMap, hid, if_neg hz]
        exact assocGet_set_self _ _ _
      · simp only [streamCallId, stepIdMap, hid, if_neg hz]
        rw [assocGet_set_self _ _ _]
        simp [jsOrS, hz]
  · intro frags
    induction frags with
    | nil => intro st i h; rfl
    | cons tc rest ih =>
      intro st i h
      have h1 := streamAccStep_idMap_preserved st tc i (h tc (by simp))
      have h2 := ih (streamAccStep st tc) i (fun tc' htc' => h tc' (by simp [htc']))
      simp only [List.foldl_cons]
      rw [h2, h1]
  · intro i j hij he
    exact hij (syntheticId_injective he)

/-- Witness for C8 at concrete data: index 0 first seen without an id is
keyed `call_0`; an explicit id `"abc"` at index 1 is recorded and then
reused by a later id-less chunk at index 1; synthetic ids of 0 and 1
differ. -/
theorem streamAcc_stable_id_assignment_witness :
    streamCallId ⟨[], []⟩ ⟨some 0, none, none, some ⟨some "f", some "x"⟩⟩ = syntheticId 0 ∧
    (assocGet (streamAccStep ⟨[], []⟩
        ⟨some 1, some "abc", none, some ⟨some "g", some "y"⟩⟩).idMap 1 = some "abc" ∧
      streamCallId ⟨[], []⟩ ⟨some 1, some "abc", none, some ⟨some "g", some "y"⟩⟩ = "abc") ∧
    streamCallId ⟨[], [(1, "abc")]⟩ ⟨some 1, none, none, some ⟨none, some "z"⟩⟩ = "abc" ∧
    syntheticId 0 ≠ syntheticId 1 := by
  refine ⟨?_, ?_, ?_, ?_⟩
  · exact streamAcc_stable_id_assignment.1 ⟨[], []⟩
      ⟨some 0, none, none, some ⟨some "f", some "x"⟩⟩ rfl rfl
  · exact streamAcc_stable_id_assignment.2.2.1 ⟨[], []⟩
      ⟨some 1, some "abc", none, some ⟨some "g", some "y"⟩⟩ "abc" rfl (by decide) rfl
  · exact streamAcc_stable_id_assignment.2.1 ⟨[], [(1, "abc")]⟩
      ⟨some 1, none, none, some ⟨none, some "z"⟩⟩ "abc" rfl (by decide) rfl
  · exact streamAcc_stable_id_assignment.2.2.2.2 0 1 (by decide)

/-- Counterexample to C8 as stated: entries for *distinct* indices can
collide — a chunk at index 0 carrying the explicit id `"call_1"` and an
id-less chunk at index 1 (whose synthetic id is also `"call_1"`) merge
into a single accumulator entry. -/
theorem streamAcc_distinct_index_collision_cex :
    (streamAccStep (streamAccStep ⟨[], []⟩
        ⟨some 0, some "call_1", none, some ⟨some "f", some "a"⟩⟩)
        ⟨some 1, none, none, some ⟨some "g", some "b"⟩⟩).acc =
      [("call_1", ⟨"call_1", "g", "ab"⟩)] ∧
    fragIndex ⟨some 0, some "call_1", none, some ⟨some "f", some "a"⟩⟩ = 0 ∧
    fragIndex ⟨some 1, none, none, some ⟨some "g", some "b"⟩⟩ = 1 ∧
    (0 : Nat) ≠ 1 :=
  ⟨rfl, rfl, rfl, by decide⟩

/-! ## Converter helper lemmas -/

theorem processToolCalls_nonstream_aux (pj : String → Option JValue)
    (tcs : List ToolCallFragment) :
    ∀ (r : List LGFunctionCall × StreamSt),
      tcs.foldl (fun (r : List LGFunctionCall × StreamSt) tc =>
        if (tc.tcType = some "function" || false) && tc.fn.isSome then
          if false then (r.1, streamAccStep r.2 tc)
          else match tc.fn with
            | none => r
            | some fn =>
              (r.1 ++ [{ id := tc.id, name := fn.name, args := parseArgsJS pj fn.args }], r.2)
        else r) r
      = (r.1 ++ tcs.filterMap (fun tc =>
          if (tc.tcType = some "function" || false) && tc.fn.isSome then
            tc.fn.map (fun fn =>
              { id := tc.id, name := fn.name, args := parseArgsJS pj fn.args })
          else none), r.2) := by
  induction tcs with
  | nil => intro r; simp
  | cons tc tcs ih =>
    intro r
    rw [List.foldl_cons, ih]
    by_cases hc : ((tc.tcType = some "function" || false) && tc.fn.isSome) = true
    · cases hfn : tc.fn with
      | none => rw [hfn] at hc; simp at hc
      | some fn =>
        have ht : tc.tcType = some "function" := by
          rw [hfn] at hc; simpa using hc
        simp [hc, hfn, ht, List.filterMap_cons]
    · have hc' : ¬(tc.tcType = some "function" ∧ tc.fn.isSome = true) := by simpa using hc
      simp [hc', List.filterMap_cons]

theorem ceToolCallParts_error (pj : String → Option JValue) :
    ∀ (tcs : List OAToolCall),
      (∃ tc ∈ tcs, tc.tcType = some "function" ∧ pj (jsOrS tc.fn.args "\x7b\x7d") = none) →
      ∃ e, ceToolCallParts pj tcs = .error e := by
  intro tcs
  induction tcs with
  | nil =>
    rintro ⟨tc, h, -⟩
    cases h
  | cons tc' rest ih =>
    rintro ⟨tc, hmem, hty, hpj⟩
    by_cases ht' : tc'.tcType = some "function"
    · cases hp : pj (jsOrS tc'.fn.args "\x7b\x7d") with
      | none => exact ⟨"SyntaxError: JSON.parse", by simp [ceToolCallParts, ht', hp]⟩
      | some v =>
        have hmem' : tc ∈ rest := by
          rcases List.mem_cons.mp hmem with rfl | h
          · rw [hp] at hpj; cases hpj
          · exact h
        obtain ⟨e, he⟩ := ih ⟨tc, hmem', hty, hpj⟩
        refine ⟨e, ?_⟩
        simp [ceToolCallParts, ht', hp, he]
    · have hmem' : tc ∈ rest := by
        rcases List.mem_cons.mp hmem with rfl | h
        · exact absurd hty ht'
        · exact h
      obtain ⟨e, he⟩ := ih ⟨tc, hmem', hty, hpj⟩
      exact ⟨e, by simp [ceToolCallParts, ht', he]⟩

/-! ## Claim C9 -/

/-- C9 (amended): in the LiteLLM converter, each non-streaming
`tool_calls` entry of type `function` becomes a canonical function call
with best-effort argument parsing — a failed parse yields empty args
(`{}`) with the entry's `id` and `name` intact, and the conversion never
fails; the custom-endpoint converter (`convertOpenAIToGemini`) instead
parses without a try/catch, so a malformed arguments string aborts the
whole response with an exception. -/
theorem toolcall_args_best_effort :
    (∀ (pj : String → Option JValue) (tcs : List ToolCallFragment) (st : StreamSt),
        processToolCalls pj false tcs st
          = (tcs.filterMap (fun tc =>
              if (tc.tcType = some "function" || false) && tc.fn.isSome then
                tc.fn.map (fun fn =>
                  { id := tc.id, name := fn.name, args := parseArgsJS pj fn.args })
              else none), st)) ∧
    (∀ (pj : String → Option JValue) (s : String), pj s = none →
        parseArgsJS pj (some s) = .jobj []) ∧
    (∀ (pj : String → Option JValue) (resp : OAResponse) (choice : OAChoice),
        resp.choices.head? = some choice →
        (∃ tc ∈ choice.message.tool_calls.getD [],
            tc.tcType = some "function" ∧ pj (jsOrS tc.fn.args "\x7b\x7d") = none) →
        ∃ e, convertOpenAIToGemini pj resp = .error e) := by
  refine ⟨?_, ?_, ?_⟩
  · intro pj tcs st
    have h := processToolCalls_nonstream_aux pj tcs ([], st)
    simpa [processToolCalls] using h
  · intro pj s h
    simp [parseArgsJS, h]
  · intro pj resp choice hc hex
    obtain ⟨e, he⟩ := ceToolCallParts_error pj _ hex
    exact ⟨e, by simp [convertOpenAIToGemini, hc, he]⟩

/-- Witness for C9: a `function` tool call with unparseable arguments
`"oops"` surfaces from the LiteLLM converter with empty args and intact
id/name, while the custom-endpoint converter errors on the same data. -/
theorem toolcall_args_best_effort_witness :
    processToolCalls pjBraceOnly false
        [⟨none, some "id1", some "function", some ⟨some "f", some "oops"⟩⟩] ⟨[], []⟩
      = ([{ id := some "id1", name := some "f", args := .jobj [] }], ⟨[], []⟩) ∧
    parseArgsJS pjBraceOnly (some "oops") = .jobj [] ∧
    ∃ e, convertOpenAIToGemini pjBraceOnly
        ⟨[⟨⟨none, some [⟨some "function", ⟨some "f", some "oops"⟩⟩]⟩, none⟩], none⟩
      = .error e := by
  refine ⟨?_, ?_, ?_⟩
  · rw [toolcall_args_best_effort.1 pjBraceOnly _ _]
    rfl
  · exact toolcall_args_best_effort.2.1 pjBraceOnly "oops" rfl
  · exact toolcall_args_best_effort.2.2 pjBraceOnly
      ⟨[⟨⟨none, some [⟨some "function", ⟨some "f", some "oops"⟩⟩]⟩, none⟩], none⟩
      ⟨⟨none, some [⟨some "function", ⟨some "f", some "oops"⟩⟩]⟩, none⟩ rfl
      ⟨⟨some "function", ⟨some "f", some "oops"⟩⟩, by simp, rfl, rfl⟩

/-- Counterexample to C9 as stated: the custom-endpoint converter aborts
the whole response on a malformed arguments string (`"oops"`), instead
of yielding the call with empty args. -/
theorem convertOpenAIToGemini_parse_abort_cex :
    convertOpenAIToGemini pjBraceOnly
        ⟨[⟨⟨none, some [⟨some "function", ⟨some "f", some "oops"⟩⟩]⟩, none⟩], none⟩
      = .error "SyntaxError: JSON.parse" ∧
    pjBraceOnly "oops" = none :=
  ⟨rfl, rfl⟩

theorem convertNonStream_ok (pj : String → Option JValue) (nowId : String)
    (data : LLData) (st : StreamSt) (choice : LLChoice)
    (h : data.choices.head? = some choice) :
    ∃ resp st', convertFromLiteLLMFormat pj nowId data false st = .ok (some resp, st') ∧
      resp.usageMetadata = mkLLUsage data.usage := by
  unfold convertFromLiteLLMFormat
  rw [h]
  exact ⟨_, _, rfl, rfl⟩

/-! ## Claim C10 -/

/-- C10 (amended): the LiteLLM converter copies the provider's usage
counts with a `|| 0` fallback: when the provider reports no usage all
three counts are zero (never undefined), and the sum invariant
`total = prompt + candidates` holds exactly when the provider's own
figures satisfy it; the synthetic flush response carries all-zero
counts; the custom-endpoint converter attaches `usageMetadata` only
when the provider reports usage (it is absent otherwise). -/
theorem usage_counts_consistency :
    (∀ (pj : String → Option JValue) (nowId : String) (data : LLData) (st : StreamSt)
        (choice : LLChoice), data.choices.head? = some choice → data.usage = none →
        ∃ resp st', convertFromLiteLLMFormat pj nowId data false st = .ok (some resp, st') ∧
          resp.usageMetadata = ⟨0, 0, 0⟩) ∧
    (∀ (pj : String → Option JValue) (nowId : String) (data : LLData) (st : StreamSt)
        (choice : LLChoice) (p c : Int), data.choices.head? = some choice →
        data.usage = some ⟨some p, some c, some (p + c)⟩ →
        ∃ resp st', convertFromLiteLLMFormat pj nowId data false st = .ok (some resp, st') ∧
          resp.usageMetadata.totalTokenCount =
            resp.usageMetadata.promptTokenCount + resp.usageMetadata.candidatesTokenCount) ∧
    (∀ (pj : String → Option JValue) (toolCalls : List AccEntry) (resp : LGResponse),
        convertAccumulatedToolCallsToGemini pj toolCalls = some resp →
        resp.usageMetadata = ⟨0, 0, 0⟩) ∧
    (∀ (pj : String → Option JValue) (resp : OAResponse) (out : CEResponse),
        resp.usage = none → convertOpenAIToGemini pj resp = .ok out →
        out.usageMetadata = none) := by
  refine ⟨?_, ?_, ?_, ?_⟩
  · intro pj nowId data st choice hc hu
    obtain ⟨resp, st', hok, husage⟩ := convertNonStream_ok pj nowId data st choice hc
    exact ⟨resp, st', hok, by rw [husage, hu]; rfl⟩
  · intro pj nowId data st choice p c hc hu
    obtain ⟨resp, st', hok, husage⟩ := convertNonStream_ok pj nowId data st choice hc
    refine ⟨resp, st', hok, ?_⟩
    rw [husage, hu]
    rfl
  · intro pj toolCalls resp h
    by_cases he : (toolCalls.map (fun tc =>
        { id := some tc.id
          name := some tc.name
          args := if tc.args = "" then JValue.jobj [] else (pj tc.args).getD (.jobj [])
          : LGFunctionCall })).isEmpty
    · simp [convertAccumulatedToolCallsToGemini, he] at h
    · simp [convertAccumulatedToolCallsToGemini, he] at h
      rw [← h]
  · intro pj resp out hu hok
    cases hc : resp.choices.head? with
    | none => simp [convertOpenAIToGemini, hc] at hok
    | some choice =>
      cases hparts : ceToolCallParts pj (choice.message.tool_calls.getD []) with
      | error e => simp [convertOpenAIToGemini, hc, hparts] at hok
      | ok callParts =>
        simp [convertOpenAIToGemini, hc, hparts, hu] at hok
        rw [← hok]

/-- Witness for C10 at concrete data: no reported usage gives all-zero
counts; consistent provider figures (3 + 4 = 7) satisfy the sum
invariant; a flushed synthetic response has zero counts; a
custom-endpoint response without usage carries no `usageMetadata`. -/
theorem usage_counts_consistency_witness :
    (∃ resp st', convertFromLiteLLMFormat (fun _ => none) "0"
        ⟨[⟨none, some ⟨none, none, none⟩, none⟩], none⟩ false ⟨[], []⟩
        = .ok (some resp, st') ∧ resp.usageMetadata = ⟨0, 0, 0⟩) ∧
    (∃ resp st', convertFromLiteLLMFormat (fun _ => none) "0"
        ⟨[⟨none, some ⟨none, none, none⟩, none⟩], some ⟨some 3, some 4, some 7⟩⟩ false ⟨[], []⟩
        = .ok (some resp, st') ∧
        resp.usageMetadata.totalTokenCount =
          resp.usageMetadata.promptTokenCount + resp.usageMetadata.candidatesTokenCount) ∧
    (convertAccumulatedToolCallsToGemini (fun _ => none) [⟨"id1", "f", ""⟩]).elim True
      (fun resp => resp.usageMetadata = ⟨0, 0, 0⟩) ∧
    (convertOpenAIToGemini (fun _ => none)
        ⟨[⟨⟨some "hi", none⟩, some "stop"⟩], none⟩).toOption.elim True
      (fun out => out.usageMetadata = none) := by
  refine ⟨?_, ?_, ?_, ?_⟩
  · exact usage_counts_consistency.1 (fun _ => none) "0"
      ⟨[⟨none, some ⟨none, none, none⟩, none⟩], none⟩ ⟨[], []⟩
      ⟨none, some ⟨none, none, none⟩, none⟩ rfl rfl
  · have h := usage_counts_consistency.2.1 (fun _ => none) "0"
      ⟨[⟨none, some ⟨none, none, none⟩, none⟩], some ⟨some 3, some 4, some 7⟩⟩ ⟨[], []⟩
      ⟨none, some ⟨none, none, none⟩, none⟩ 3 4 rfl rfl
    exact h
  · exact usage_counts_consistency.2.2.1 (fun _ => none) [⟨"id1", "f", ""⟩] _ rfl
  · exact usage_counts_consistency.2.2.2 (fun _ => none)
      ⟨[⟨⟨some "hi", none⟩, some "stop"⟩], none⟩ _ rfl rfl

/-- Counterexample to C10 as stated: the converter never enforces the
sum invariant — a provider reporting `prompt=1, completion=2, total=5`
yields `totalTokenCount = 5 ≠ 1 + 2`; and a custom-endpoint response
without provider usage has *no* `usageMetadata` at all (undefined when
read), not zero counts. -/
theorem usage_counts_cex :
    convertFromLiteLLMFormat (fun _ => none) "0"
        ⟨[⟨none, some ⟨none, none, none⟩, none⟩], some ⟨some 1, some 2, some 5⟩⟩ false ⟨[], []⟩
      = .ok (some { text := "", finishReason := "STOP"
                    usageMetadata := ⟨1, 2, 5⟩, functionCalls := [] }, ⟨[], []⟩) ∧
    (5 : Int) ≠ 1 + 2 ∧
    convertOpenAIToGemini (fun _ => none) ⟨[⟨⟨some "hi", none⟩, some "stop"⟩], none⟩
      = .ok { parts := [.text "hi"], finishReason := "STOP"
              usageMetadata := none, text := "hi" } :=
  ⟨rfl, by decide, rfl⟩

/-! ## Streaming driver: helper lemmas -/

theorem processToolCalls_stream_fst_aux (pj : String → Option JValue)
    (tcs : List ToolCallFragment) :
    ∀ (r : List LGFunctionCall × StreamSt),
      (tcs.foldl (fun (r : List LGFunctionCall × StreamSt) tc =>
        if (tc.tcType = some "function" || true) && tc.fn.isSome then
          if true then (r.1, streamAccStep r.2 tc)
          else match tc.fn with
            | none => r
            | some fn =>
              (r.1 ++ [{ id := tc.id, name := fn.name, args := parseArgsJS pj fn.args }], r.2)
        else r) r).1
      = r.1 := by
  induction tcs with
  | nil => intro r; rfl
  | cons tc tcs ih =>
    intro r
    rw [List.foldl_cons]
    by_cases hc : ((tc.tcType = some "function" || true) && tc.fn.isSome) = true
    · rw [if_pos hc]
      exact ih _
    · rw [if_neg hc]
      exact ih _

theorem processMessageToolCalls_stream_fst (pj : String → Option JValue)
    (otcs : Option (List ToolCallFragment)) (st : StreamSt) :
    (processMessageToolCalls pj true otcs st).1 = [] := by
  cases otcs with
  | none => rfl
  | some tcs =>
    have h := processToolCalls_stream_fst_aux pj tcs ([], st)
    simpa [processMessageToolCalls, processToolCalls] using h

theorem convertStream_noFnCalls (pj : String → Option JValue) (nowId : String)
    (chunk : LLData) (st : StreamSt) (h : chunkNoGeminiCall chunk = true)
    (yOpt : Option LGResponse) (st' : StreamSt) (r : LGResponse)
    (hok : convertFromLiteLLMFormat pj nowId chunk true st = .ok (yOpt, st'))
    (hy : yOpt = some r) : r.functionCalls = [] := by
  cases hc : chunk.choices.head? with
  | none =>
    rw [convertFromLiteLLMFormat, hc] at hok
    cases hok
  | some choice =>
    have hg : choice.delta.bind (fun m => m.function_call) = none := by
      rw [chunkNoGeminiCall, hc] at h
      simpa using h
    rw [convertFromLiteLLMFormat, hc] at hok
    simp only [hg, geminiCallOf, processMessageToolCalls_stream_fst, List.append_nil,
      if_true, ite_true] at hok
    by_cases htext : jsOrS (choice.delta.bind fun a => a.content) "" = ""
    · simp only [htext, List.isEmpty_nil, Bool.and_true, Bool.true_and, decide_True,
        if_true, ite_true] at hok
      cases hok
      cases hy
    · simp only [htext, decide_False, Bool.and_false, Bool.false_and, Bool.and_true,
        Bool.true_and, if_false, ite_false] at hok
      cases hok
      cases hy
      rfl

theorem runStream_noDone (pc : String → Option LLData) (pj : String → Option JValue)
    (nowId : String) :
    ∀ (lines : List String) (st : StreamSt),
      (∀ l ∈ lines, isDoneLine l = false) →
      (∀ s chunk, pc s = some chunk → chunkNoGeminiCall chunk = true) →
      (runStreamCore pc pj nowId st lines).2.2 = false ∧
      ∀ r ∈ (runStreamCore pc pj nowId st lines).1, r.functionCalls = [] := by
  intro lines
  induction lines with
  | nil =>
    intro st h hpc
    exact ⟨rfl, fun r hr => absurd hr (List.not_mem_nil r)⟩
  | cons line rest ih =>
    intro st h hpc
    have hline := h line (by simp)
    have hrest : ∀ l ∈ rest, isDoneLine l = false := fun l hl => h l (by simp [hl])
    by_cases hsw : jsStartsWith line "data: " = true
    · have hpay : ¬ (jsDrop line 6 = "[DONE]") := by
        intro he
        rw [isDoneLine, hsw] at hline
        simp [he] at hline
      rw [runStreamCore, if_pos hsw, if_neg hpay]
      cases hpc' : pc (jsDrop line 6) with
      | none =>
        simp only [hpc']
        exact ih st hrest hpc
      | some chunk =>
        simp only [hpc']
        cases hcv : convertFromLiteLLMFormat pj nowId chunk true st with
        | error e =>
          simp only [hcv]
          exact ih st hrest hpc
        | ok pr =>
          rcases pr with ⟨yOpt, st'⟩
          simp only [hcv]
          refine ⟨(ih st' hrest hpc).1, ?_⟩
          intro r hr
          rw [List.mem_append] at hr
          rcases hr with hr | hr
          · cases yOpt with
            | none => cases hr
            | some y =>
              have hry : r = y := by simpa using hr
              subst hry
              exact convertStream_noFnCalls pj nowId chunk st (hpc _ _ hpc') _ _ _ hcv rfl
          · exact (ih st' hrest hpc).2 r hr
    · rw [runStreamCore, if_neg hsw]
      exact ih st hrest hpc

theorem runStream_done_split (pc : String → Option LLData) (pj : String → Option JValue)
    (nowId : String) :
    ∀ (pre : List String) (dn : String) (post : List String) (st : StreamSt),
      (∀ l ∈ pre, isDoneLine l = false) → isDoneLine dn = true →
      runStreamCore pc pj nowId st (pre ++ dn :: post)
        = ((runStreamCore pc pj nowId st pre).1
            ++ flushAccumulated pj (runStreamCore pc pj nowId st pre).2.1,
           (runStreamCore pc pj nowId st pre).2.1, true) := by
  intro pre
  induction pre with
  | nil =>
    intro dn post st h hdn
    have h2 : jsStartsWith dn "data: " = true ∧ (jsDrop dn 6 == "[DONE]") = true := by
      simpa [isDoneLine] using hdn
    have hpay : jsDrop dn 6 = "[DONE]" := by simpa using h2.2
    rw [List.nil_append, runStreamCore, runStreamCore, if_pos h2.1, if_pos hpay]
    simp
  | cons line pre ih =>
    intro dn post st h hdn
    have hline := h line (by simp)
    have hrest : ∀ l ∈ pre, isDoneLine l = false := fun l hl => h l (by simp [hl])
    rw [List.cons_append]
    by_cases hsw : jsStartsWith line "data: " = true
    · have hpay : ¬ (jsDrop line 6 = "[DONE]") := by
        intro he
        rw [isDoneLine, hsw] at hline
        simp [he] at hline
      rw [runStreamCore, if_pos hsw, if_neg hpay]
      conv_rhs => rw [runStreamCore, if_pos hsw, if_neg hpay]
      cases hpc' : pc (jsDrop line 6) with
      | none =>
        simp only [hpc']
        exact ih dn post st hrest hdn
      | some chunk =>
        simp only [hpc']
        cases hcv : convertFromLiteLLMFormat pj nowId chunk true st with
        | error e =>
          simp only [hcv]
          exact ih dn post st hrest hdn
        | ok pr =>
          rcases pr with ⟨yOpt, st'⟩
          simp only [hcv]
          rw [ih dn post st' hrest hdn]
          simp [List.append_assoc]
    · rw [runStreamCore, if_neg hsw]
      conv_rhs => rw [runStreamCore, if_neg hsw]
      exact ih dn post st hrest hdn

theorem flushAccumulated_nonempty (pj : String → Option JValue) (st : StreamSt)
    (h : st.acc ≠ []) :
    ∃ resp, flushAccumulated pj st = [resp] ∧
      resp.text = "" ∧ resp.finishReason = "tool_calls" ∧
      resp.usageMetadata = ⟨0, 0, 0⟩ ∧
      resp.functionCalls = (st.acc.map (fun p => p.2)).map (fun tc =>
        { id := some tc.id, name := some tc.name
          args := if tc.args = "" then JValue.jobj [] else (pj tc.args).getD (.jobj []) }) := by
  have hne : st.acc.isEmpty = false := by simpa [List.isEmpty_iff] using h
  have hne2 : ((st.acc.map (fun p => p.2)).map (fun tc =>
      { id := some tc.id, name := some tc.name
        args := if tc.args = "" then JValue.jobj [] else (pj tc.args).getD (.jobj [])
        : LGFunctionCall })).isEmpty = false := by
    cases hacc : st.acc with
    | nil => exact absurd hacc h
    | cons a l => simp
  simp only [flushAccumulated, convertAccumulatedToolCallsToGemini, hne, hne2,
    Bool.false_eq_true, if_false, ite_false, Option.toList_some]
  exact ⟨_, rfl, rfl, rfl, rfl, rfl⟩

/-! ## Claim C3 -/

/-- C3 (amended): during streaming, OpenAI-style tool-call fragments in
delta chunks are only accumulated and never yielded as individual
partial calls — every response yielded before the terminator carries no
function calls; when the `data: [DONE]` terminator arrives, the
accumulated calls are flushed exactly once as one final synthetic
response (finish reason `tool_calls`, carrying exactly the accumulated
entries, fully assembled) and processing stops; but if the stream ends
*without* `[DONE]`, the accumulated calls are silently dropped, never
emitted. -/
theorem litellm_stream_flush_only_at_done :
    (∀ (pc : String → Option LLData) (pj : String → Option JValue) (nowId : String)
        (lines : List String) (st : StreamSt),
        (∀ l ∈ lines, isDoneLine l = false) →
        (∀ s chunk, pc s = some chunk → chunkNoGeminiCall chunk = true) →
        (runStreamCore pc pj nowId st lines).2.2 = false ∧
        ∀ r ∈ (runStreamCore pc pj nowId st lines).1, r.functionCalls = []) ∧
    (∀ (pc : String → Option LLData) (pj : String → Option JValue) (nowId : String)
        (pre : List String) (dn : String) (post : List String) (st : StreamSt),
        (∀ l ∈ pre, isDoneLine l = false) → isDoneLine dn = true →
        runStreamCore pc pj nowId st (pre ++ dn :: post)
          = ((runStreamCore pc pj nowId st pre).1
              ++ flushAccumulated pj (runStreamCore pc pj nowId st pre).2.1,
             (runStreamCore pc pj nowId st pre).2.1, true)) ∧
    (∀ (pj : String → Option JValue) (st : StreamSt), st.acc ≠ [] →
        ∃ resp, flushAccumulated pj st = [resp] ∧
          resp.text = "" ∧ resp.finishReason = "tool_calls" ∧
          resp.usageMetadata = ⟨0, 0, 0⟩ ∧
          resp.functionCalls = (st.acc.map (fun p => p.2)).map (fun tc =>
            { id := some tc.id, name := some tc.name
              args := if tc.args = "" then JValue.jobj []
                      else (pj tc.args).getD (.jobj []) })) :=
  ⟨fun pc pj nowId lines st h hpc => runStream_noDone pc pj nowId lines st h hpc,
   fun pc pj nowId pre dn post st h hdn => runStream_done_split pc pj nowId pre dn post st h hdn,
   fun pj st h => flushAccumulated_nonempty pj st h⟩

/-- Witness for C3 at concrete data: one chunk line accumulates a
fragment and yields nothing; a `[DONE]` line after it flushes the
accumulated call exactly once. -/
theorem litellm_stream_flush_only_at_done_witness :
    ((runStreamCore pcFrag pjBraceOnly "0" ⟨[], []⟩ ["data: " ++ fragPayload]).2.2 = false ∧
      ∀ r ∈ (runStreamCore pcFrag pjBraceOnly "0" ⟨[], []⟩ ["data: " ++ fragPayload]).1,
        r.functionCalls = []) ∧
    runStreamCore pcFrag pjBraceOnly "0" ⟨[("call_0", ⟨"call_0", "f", "\x7b\x7d"⟩)], []⟩
        ([] ++ "data: [DONE]" :: [])
      = ((runStreamCore pcFrag pjBraceOnly "0"
            ⟨[("call_0", ⟨"call_0", "f", "\x7b\x7d"⟩)], []⟩ []).1
          ++ flushAccumulated pjBraceOnly (runStreamCore pcFrag pjBraceOnly "0"
            ⟨[("call_0", ⟨"call_0", "f", "\x7b\x7d"⟩)], []⟩ []).2.1,
         (runStreamCore pcFrag pjBraceOnly "0"
            ⟨[("call_0", ⟨"call_0", "f", "\x7b\x7d"⟩)], []⟩ []).2.1, true) ∧
    (∃ resp, flushAccumulated pjBraceOnly ⟨[("call_0", ⟨"call_0", "f", "\x7b\x7d"⟩)], []⟩
        = [resp] ∧
      resp.text = "" ∧ resp.finishReason = "tool_calls" ∧
      resp.usageMetadata = ⟨0, 0, 0⟩ ∧
      resp.functionCalls = (([("call_0", (⟨"call_0", "f", "\x7b\x7d"⟩ : AccEntry))].map
          (fun p => p.2)).map (fun tc =>
        { id := some tc.id, name := some tc.name
          args := if tc.args = "" then JValue.jobj []
                  else (pjBraceOnly tc.args).getD (.jobj []) }))) := by
  refine ⟨litellm_stream_flush_only_at_done.1 pcFrag pjBraceOnly "0" _ _ (by decide) ?_,
    litellm_stream_flush_only_at_done.2.1 pcFrag pjBraceOnly "0" [] "data: [DONE]" []
      ⟨[("call_0", ⟨"call_0", "f", "\x7b\x7d"⟩)], []⟩
      (fun l hl => absurd hl (List.not_mem_nil l)) (by decide),
    litellm_stream_flush_only_at_done.2.2 pjBraceOnly
      ⟨[("call_0", ⟨"call_0", "f", "\x7b\x7d"⟩)], []⟩ (by decide)⟩
  intro s chunk h
  rw [pcFrag] at h
  by_cases hs : s = fragPayload
  · rw [if_pos hs] at h
    cases h
    rfl
  · rw [if_neg hs] at h
    cases h

/-- Counterexample to C3 as stated: a stream that ends *without* the
`[DONE]` terminator, holding one fully accumulated tool call, yields no
response at all — the accumulated call is dropped, not emitted at
end-of-stream. -/
theorem litellm_stream_eos_drops_accumulated_cex :
    runStreamCore pcFrag pjBraceOnly "0" ⟨[], []⟩ ["data: " ++ fragPayload]
      = ([], ⟨[("call_0", ⟨"call_0", "f", "\x7b\x7d"⟩)], []⟩, false) ∧
    ([("call_0", (⟨"call_0", "f", "\x7b\x7d"⟩ : AccEntry))] : List (String × AccEntry)) ≠ [] :=
  ⟨rfl, by decide⟩
